import Mathlib

/-!
# Verification of the fuzz-lightyear fixture-resolution and caching engine

A shallow embedding of `src/fuzz_lightyear/datastore.py`.

Python values are modelled by the inductive `Value` (with `Value.vnone`
playing the role of `None`), Python exceptions by `PyErr`, and Python
`dict`s by insertion-ordered association lists.  The decorator
`inject_user_defined_variables` is modelled by `wrappedCall`: the state a
call can read and mutate (the `_fuzz_cache` attribute and the
instrumentation counters used by the spec's testable properties) is passed
explicitly as a `WrapState`.  The `for index, arg_name in
enumerate(expected_args)` loop of the wrapper is `resolveFrom`, with the
running `enumerate` index threaded as an explicit argument.

The `lru_cache(maxsize=1)` global accessors of the datastore are modelled
by `DataStore`, a small heap with one memo slot per accessor, so that
object identity (aliasing) of the returned containers is observable.
-/

namespace FuzzLightyear

/-- Python runtime values, as far as the engine inspects them.
`vnone` is Python's `None`.  The engine never looks inside a list value,
so lists of integers (the shape of the spec's `[1,2,3]` example) stand in
for Python lists. -/
inductive Value
  | vnone
  | vbool (b : Bool)
  | vint (n : Int)
  | vstr (s : String)
  | vlist (l : List Int)
deriving DecidableEq, Repr

/-- Python exceptions raised by the engine or by user code.
The missing-fixture failure in `inject_user_defined_variables` is a bare
`raise TypeError`; a failing coercion such as `int("abc")` is a
`ValueError`; `userError` stands for an arbitrary exception raised by a
wrapped function's body. -/
inductive PyErr
  | typeError
  | valueError
  | userError (msg : String)
deriving DecidableEq, Repr

/-- First-match lookup in an association list: Python `d[k]` / `k in d`. -/
def lookupA {α : Type} : List (String × α) → String → Option α
  | [], _ => none
  | p :: rest, k => if p.1 = k then some p.2 else lookupA rest k

/-- Python `d[k] = v` on an insertion-ordered dict: an existing key keeps
its position and gets the new value, a new key is appended at the end. -/
def setKw : List (String × Value) → String → Value → List (String × Value)
  | [], k, v => [(k, v)]
  | p :: rest, k, v =>
    if p.1 = k then (k, v) :: rest else p :: setKw rest k v

/-- Rendering used by the `str` constructor when it is applied as a
type-annotation coercion. -/
def pyStr : Value → String
  | Value.vnone => "None"
  | Value.vbool true => "True"
  | Value.vbool false => "False"
  | Value.vint n => toString n
  | Value.vstr s => s
  | Value.vlist _ => "[...]"

/-- The concrete single-argument constructors that appear as type
annotations in the engine's coercion step (`value = annotation(value)`). -/
inductive Conv
  | toInt
  | toStr
deriving DecidableEq, Repr

/-- Decimal digit parser for the `int` constructor, structurally
recursive over the character list. -/
def parseNatAux : List Char → Nat → Option Nat
  | [], acc => some acc
  | c :: cs, acc =>
    if c.isDigit then parseNatAux cs (acc * 10 + (c.toNat - 48)) else none

/-- Python's `int(string)`: an optional minus sign followed by at least
one decimal digit; `none` models the `ValueError` on anything else. -/
def pyParseInt (s : String) : Option Int :=
  match s.data with
  | [] => none
  | '-' :: cs =>
    match cs with
    | [] => none
    | _ => (parseNatAux cs 0).map (fun n => -(n : Int))
  | cs => (parseNatAux cs 0).map (fun n => (n : Int))

/-- Applying a concrete annotation as a single-argument converter, with
Python's failure behaviour: `int` accepts ints, booleans and integer
literals in strings (`ValueError` on a malformed string, `TypeError` on
`None` or a list); `str` accepts everything. -/
def applyConv : Conv → Value → Except PyErr Value
  | Conv.toInt, Value.vint n => Except.ok (Value.vint n)
  | Conv.toInt, Value.vbool b => Except.ok (Value.vint (if b then 1 else 0))
  | Conv.toInt, Value.vstr s =>
    match pyParseInt s with
    | some n => Except.ok (Value.vint n)
    | none => Except.error PyErr.valueError
  | Conv.toInt, _ => Except.error PyErr.typeError
  | Conv.toStr, v => Except.ok (Value.vstr (pyStr v))

/-- A declared type annotation as the engine classifies it:
`concrete c` is a plain type for which `isinstance(ann, type(List))` is
false (the annotation is applied as the converter `c`); `generic` is a
parameterized typing construct such as `List[int]`, for which
`isinstance(ann, type(List))` is true and coercion is skipped. -/
inductive Annot
  | concrete (c : Conv)
  | generic
deriving DecidableEq, Repr

/-- The pieces of a Python code object that
`_get_injectable_variables` reads, in CPython's `co_varnames` layout:
positional parameters, then keyword-only parameters, then the `*args` /
`**kwargs` names when present, then the body's local variables. -/
structure CodeObject where
  posParams : List String
  kwonlyParams : List String
  varArgs : Option String
  varKwargs : Option String
  localVars : List String
deriving DecidableEq, Repr

/-- `func.__code__.co_varnames`. -/
def co_varnames (c : CodeObject) : List String :=
  c.posParams ++ c.kwonlyParams ++ c.varArgs.toList ++ c.varKwargs.toList
    ++ c.localVars

/-- `func.__code__.co_argcount`. -/
def co_argcount (c : CodeObject) : Nat :=
  c.posParams.length

/-- `func.__code__.co_kwonlyargcount`. -/
def co_kwonlyargcount (c : CodeObject) : Nat :=
  c.kwonlyParams.length

/-- `_get_injectable_variables(func)`:
`co_varnames[:co_argcount + co_kwonlyargcount]`. -/
def getInjectableVariables (c : CodeObject) : List String :=
  (co_varnames c).take (co_argcount c + co_kwonlyargcount c)

/-- A Python function as the decorator sees it: its code object, the
annotations returned by `inspect.getfullargspec(func).annotations`, and
its body, which receives the positional arguments and the (possibly
injection-extended) keyword arguments and either returns a value or
raises. -/
structure Func where
  code : CodeObject
  annotations : List (String × Annot)
  body : List Value → List (String × Value) → Except PyErr Value

/-- The mutable state surrounding one wrapped function: its `_fuzz_cache`
attribute (`vnone` meaning both "attribute absent" and "set to None",
which `getattr(func, '_fuzz_cache', None) is not None` cannot tell
apart), plus the instrumentation the spec's testable properties observe:
the ordered log of fixture-factory invocations and the number of times
the function's body ran. -/
structure WrapState where
  cache : Value
  factoryCalls : List String
  bodyCalls : Nat
deriving DecidableEq, Repr

/-- The coercion step of the injection loop, for one parameter:
`if arg_name in type_annotations and not isinstance(type_annotations[arg_name], type(List)):
value = type_annotations[arg_name](value)`. -/
def coerceStep (annots : List (String × Annot)) (name : String)
    (v : Value) : Except PyErr Value :=
  match lookupA annots name with
  | some (Annot.concrete c) => applyConv c v
  | _ => Except.ok v

/-- The `for index, arg_name in enumerate(expected_args)` loop of
`wrapped`, with the `enumerate` index threaded explicitly.  For each
name: skip it if its index is covered by a supplied positional argument;
otherwise raise `TypeError` if it has no fixture, invoke the fixture's
factory (recorded in the log), coerce per the annotation, and bind the
result into the keyword arguments.  Returns the final keyword arguments
(or the raised error) together with the factory-invocation log. -/
def resolveFrom (mapping : List (String × Value))
    (annots : List (String × Annot)) (nargs : Nat) :
    Nat → List String → List (String × Value) → List String →
    Except PyErr (List (String × Value)) × List String
  | _, [], kwargs, log => (Except.ok kwargs, log)
  | index, argName :: rest, kwargs, log =>
    if index < nargs then
      resolveFrom mapping annots nargs (index + 1) rest kwargs log
    else
      match lookupA mapping argName with
      | none => (Except.error PyErr.typeError, log)
      | some fv =>
        match coerceStep annots argName fv with
        | Except.error e => (Except.error e, log ++ [argName])
        | Except.ok v =>
          resolveFrom mapping annots nargs (index + 1) rest
            (setKw kwargs argName v) (log ++ [argName])

/-- One call of the function produced by
`inject_user_defined_variables(func)`.  `mapping` is the registry
returned by `get_user_defined_mapping()`, with each fixture's factory
modelled by the value it produces (its invocations are recorded in the
state's log).  If the cache is non-empty the cached value is returned
unchanged; otherwise the injection loop runs, the body is called with
the original positional arguments and the extended keyword arguments,
and on success its result is stored in the cache and returned. -/
def wrappedCall (mapping : List (String × Value)) (func : Func)
    (st : WrapState) (args : List Value) (kwargs : List (String × Value)) :
    Except PyErr Value × WrapState :=
  if st.cache ≠ Value.vnone then
    (Except.ok st.cache, st)
  else
    match resolveFrom mapping func.annotations args.length 0
        (getInjectableVariables func.code) kwargs st.factoryCalls with
    | (Except.error e, log) =>
      (Except.error e, { st with factoryCalls := log })
    | (Except.ok kwargs2, log) =>
      match func.body args kwargs2 with
      | Except.error e =>
        (Except.error e,
          { st with factoryCalls := log, bodyCalls := st.bodyCalls + 1 })
      | Except.ok v =>
        (Except.ok v,
          { cache := v, factoryCalls := log, bodyCalls := st.bodyCalls + 1 })

/-! ## Concrete fixtures used to exercise the theorems -/

/-- Code object of a one-parameter function `f(name)`. -/
def nameCode : CodeObject := ⟨["name"], [], none, none, []⟩

/-- Body of the spec's example `f(name) -> f"hello {name}"`: uses the
positional argument when supplied, the keyword binding otherwise. -/
def greetBody : List Value → List (String × Value) → Except PyErr Value :=
  fun args kw =>
    match args with
    | Value.vstr s :: _ => Except.ok (Value.vstr ("hello " ++ s))
    | _ =>
      match lookupA kw "name" with
      | some (Value.vstr s) => Except.ok (Value.vstr ("hello " ++ s))
      | _ => Except.error PyErr.typeError

/-- The spec's example wrapped function `f(name)` (no annotations). -/
def greetFunc : Func := ⟨nameCode, [], greetBody⟩

/-- The spec's example registry: fixture `name -> "freddy"`. -/
def freddyMapping : List (String × Value) := [("name", Value.vstr "freddy")]

/-- A fresh wrapped-function state: empty cache, zeroed counters. -/
def freshState : WrapState := ⟨Value.vnone, [], 0⟩

/-- Code object and function for the spec's coercion examples:
`h(amount: int)` together with `k(items: List[int])`, combined here as a
two-parameter function with one concretely and one generically annotated
parameter. -/
def coerceCode : CodeObject := ⟨["amount", "items"], [], none, none, []⟩

/-- Function whose `amount` parameter is annotated with the concrete
type `int` and whose `items` parameter carries the generic annotation
`List[int]`. -/
def coerceFunc : Func :=
  ⟨coerceCode,
    [("amount", Annot.concrete Conv.toInt), ("items", Annot.generic)],
    fun _ kw =>
      match lookupA kw "amount" with
      | some (Value.vint n) => Except.ok (Value.vint (n + 1))
      | _ => Except.error PyErr.typeError⟩

/-- Registry for the coercion examples: `amount -> "5"` (a string) and
`items -> [1,2,3]`. -/
def coerceMapping : List (String × Value) :=
  [("amount", Value.vstr "5"), ("items", Value.vlist [1, 2, 3])]

/-- Function used to refute C3 as stated: `f(a: int, b)` whose fixture
for `a` produces the unparseable string `"abc"` while `b` has no fixture
at all. -/
def badCoerceFunc : Func :=
  ⟨⟨["a", "b"], [], none, none, []⟩,
    [("a", Annot.concrete Conv.toInt)],
    fun _ _ => Except.ok (Value.vint 0)⟩

/-- Function used to refute C4 as stated: its body computes the empty
value `None`. -/
def noneFunc : Func := ⟨nameCode, [], fun _ _ => Except.ok Value.vnone⟩

/-- Function whose body raises: used to exercise the
exception-propagation claims. -/
def failFunc : Func :=
  ⟨nameCode, [], fun _ _ => Except.error (PyErr.userError "boom")⟩

/-! ## The registry as `clear_cache` sees it -/

/-- Modelled from the spec: the registration entry point that populates
the Fixture Registry is not part of the given source; per the spec the
registry's values are the wrapped functions themselves, each carrying
the `_fuzz_cache` slot (and instrumentation counters) that
`clear_cache` resets and the wrapper consults. -/
structure Wrapped where
  func : Func
  st : WrapState

/-- `clear_cache()`:
`for value in get_user_defined_mapping().values(): value._fuzz_cache = None` —
iterates the registry's values and sets each one's cache slot to `None`,
touching nothing else and returning nothing. -/
def clear_cache (mapping : List (String × Wrapped)) :
    List (String × Wrapped) :=
  mapping.map fun p =>
    (p.1, ⟨p.2.func, ⟨Value.vnone, p.2.st.factoryCalls, p.2.st.bodyCalls⟩⟩)

/-! ## The `lru_cache(maxsize=1)` container accessors -/

/-- A container object living on the heap: one variant per global
container of the datastore. -/
inductive PyObj
  | tagSet (elems : List String)
  | mappingObj (entries : List (String × Value))
  | opMap (entries : List (String × Option String))
  | fixtureList (entries : List Nat)
deriving DecidableEq, Repr

/-- Functional update of the heap at one address. -/
def heapSet (h : Nat → Option PyObj) (a : Nat) (o : PyObj) :
    Nat → Option PyObj :=
  fun n => if n = a then some o else h n

/-- The process-wide state behind the five `lru_cache(maxsize=1)`
accessors: a heap of allocated container objects and one memo slot per
accessor, holding the address of the container the first call created
(`none` before the first call).  Returning an address models Python
returning a reference to the cached object. -/
structure DataStore where
  nextAddr : Nat
  heap : Nat → Option PyObj
  setupSlot : Option Nat
  mappingSlot : Option Nat
  tagsSlot : Option Nat
  excludedSlot : Option Nat
  nonVulnerableSlot : Option Nat

/-- `get_setup_fixtures()`: on the first call allocate the empty list
and memoize its address; afterwards return the memoized address. -/
def get_setup_fixtures (s : DataStore) : Nat × DataStore :=
  match s.setupSlot with
  | some a => (a, s)
  | none =>
    (s.nextAddr,
      { s with
          nextAddr := s.nextAddr + 1
          heap := heapSet s.heap s.nextAddr (PyObj.fixtureList [])
          setupSlot := some s.nextAddr })

/-- `get_user_defined_mapping()`: memoized empty dict. -/
def get_user_defined_mapping (s : DataStore) : Nat × DataStore :=
  match s.mappingSlot with
  | some a => (a, s)
  | none =>
    (s.nextAddr,
      { s with
          nextAddr := s.nextAddr + 1
          heap := heapSet s.heap s.nextAddr (PyObj.mappingObj [])
          mappingSlot := some s.nextAddr })

/-- `get_included_tags()`: memoized empty set. -/
def get_included_tags (s : DataStore) : Nat × DataStore :=
  match s.tagsSlot with
  | some a => (a, s)
  | none =>
    (s.nextAddr,
      { s with
          nextAddr := s.nextAddr + 1
          heap := heapSet s.heap s.nextAddr (PyObj.tagSet [])
          tagsSlot := some s.nextAddr })

/-- `get_excluded_operations()`: memoized empty dict. -/
def get_excluded_operations (s : DataStore) : Nat × DataStore :=
  match s.excludedSlot with
  | some a => (a, s)
  | none =>
    (s.nextAddr,
      { s with
          nextAddr := s.nextAddr + 1
          heap := heapSet s.heap s.nextAddr (PyObj.opMap [])
          excludedSlot := some s.nextAddr })

/-- `get_non_vulnerable_operations()`: memoized empty dict. -/
def get_non_vulnerable_operations (s : DataStore) : Nat × DataStore :=
  match s.nonVulnerableSlot with
  | some a => (a, s)
  | none =>
    (s.nextAddr,
      { s with
          nextAddr := s.nextAddr + 1
          heap := heapSet s.heap s.nextAddr (PyObj.opMap [])
          nonVulnerableSlot := some s.nextAddr })

/-- In-place mutation of the tag set at address `a`: Python
`get_included_tags().add(t)`. -/
def addTag (s : DataStore) (a : Nat) (t : String) : DataStore :=
  match s.heap a with
  | some (PyObj.tagSet ts) =>
    { s with
        heap := heapSet s.heap a
          (PyObj.tagSet (if t ∈ ts then ts else ts ++ [t])) }
  | _ => s

/-- Reading the tag set through the reference `a`. -/
def readTags (s : DataStore) (a : Nat) : List String :=
  match s.heap a with
  | some (PyObj.tagSet ts) => ts
  | _ => []

/-- Well-formedness of the tags memo slot: if it is set, it points at a
tag-set object on the heap (true of every state reachable from a fresh
store). -/
def tagsConsistent (s : DataStore) : Bool :=
  match s.tagsSlot with
  | none => true
  | some a =>
    match s.heap a with
    | some (PyObj.tagSet _) => true
    | _ => false

/-- The store at process start: empty heap, no accessor called yet. -/
def freshStore : DataStore := ⟨0, fun _ => none, none, none, none,
  none, none⟩

/-! ## Basic lemmas about the dict and loop operations -/

theorem coerceStep_generic (an : List (String × Annot)) (name : String)
    (fv : Value) (h : lookupA an name = some Annot.generic) :
    coerceStep an name fv = Except.ok fv := by
  rw [coerceStep, h]

theorem coerceStep_concrete (an : List (String × Annot)) (name : String)
    (fv : Value) (c : Conv)
    (h : lookupA an name = some (Annot.concrete c)) :
    coerceStep an name fv = applyConv c fv := by
  rw [coerceStep, h]

theorem coerceStep_none (an : List (String × Annot)) (name : String)
    (fv : Value) (h : lookupA an name = none) :
    coerceStep an name fv = Except.ok fv := by
  rw [coerceStep, h]

theorem lookupA_setKw_self (l : List (String × Value)) (k : String)
    (v : Value) : lookupA (setKw l k v) k = some v := by
  induction l with
  | nil => simp [setKw, lookupA]
  | cons p rest ih =>
    by_cases h : p.1 = k
    · simp [setKw, h, lookupA]
    · simp [setKw, h, lookupA, ih]

theorem lookupA_setKw_ne (l : List (String × Value)) (k k' : String)
    (v : Value) (h : k' ≠ k) :
    lookupA (setKw l k v) k' = lookupA l k' := by
  induction l with
  | nil => simp [setKw, lookupA, Ne.symm h]
  | cons p rest ih =>
    by_cases hp : p.1 = k
    · have hp' : p.1 ≠ k' := by rw [hp]; exact Ne.symm h
      simp only [setKw, if_pos hp, lookupA]
      rw [if_neg (Ne.symm h), if_neg hp']
    · simp only [setKw, if_neg hp, lookupA]
      rw [ih]

/-- The loop's outcome and keyword output do not depend on the incoming
factory log; the log is extended by an amount determined by the other
arguments. -/
theorem resolveFrom_shift (m : List (String × Value))
    (an : List (String × Annot)) (n : Nat) (l : List String) :
    ∀ (i : Nat) (kw : List (String × Value)) (log : List String),
      resolveFrom m an n i l kw log =
        ((resolveFrom m an n i l kw []).1,
          log ++ (resolveFrom m an n i l kw []).2) := by
  induction l with
  | nil => intro i kw log; simp [resolveFrom]
  | cons a rest ih =>
    intro i kw log
    by_cases hc : i < n
    · simp only [resolveFrom, if_pos hc]
      exact ih (i + 1) kw log
    · simp only [resolveFrom, if_neg hc]
      split
      · simp
      · split
        · simp
        · rename_i fv hma v hcs
          simp only [List.nil_append]
          rw [ih (i + 1) (setKw kw a v) (log ++ [a]),
            ih (i + 1) (setKw kw a v) [a]]
          simp

/-- On success the loop has appended to the log exactly the names whose
index was not covered by a positional argument, in order. -/
theorem resolveFrom_ok_log (m : List (String × Value))
    (an : List (String × Annot)) (n : Nat) (l : List String) :
    ∀ (i : Nat) (kw kw2 : List (String × Value)) (log log2 : List String),
      resolveFrom m an n i l kw log = (Except.ok kw2, log2) →
      log2 = log ++ l.drop (n - i) := by
  induction l with
  | nil =>
    intro i kw kw2 log log2 h
    simp only [resolveFrom, Prod.mk.injEq] at h
    simp [h.2.symm]
  | cons a rest ih =>
    intro i kw kw2 log log2 h
    simp only [resolveFrom] at h
    split at h
    · rename_i hc
      have hd : n - i = (n - (i + 1)) + 1 := by omega
      rw [ih (i + 1) kw kw2 log log2 h, hd, List.drop_succ_cons]
    · rename_i hc
      split at h
      · simp at h
      · rename_i fv hma
        split at h
        · simp at h
        · rename_i v hcs
          have hd : n - i = 0 := by omega
          have hd2 : n - (i + 1) = 0 := by omega
          have := ih (i + 1) (setKw kw a v) kw2 (log ++ [a]) log2 h
          rw [this, hd2, hd]
          simp

/-- On success, a name not among the uncovered injectable names keeps
whatever binding it had in the incoming keyword arguments. -/
theorem resolveFrom_ok_preserve (m : List (String × Value))
    (an : List (String × Annot)) (n : Nat) (l : List String) :
    ∀ (i : Nat) (kw kw2 : List (String × Value)) (log log2 : List String)
      (name : String),
      resolveFrom m an n i l kw log = (Except.ok kw2, log2) →
      name ∉ l.drop (n - i) →
      lookupA kw2 name = lookupA kw name := by
  induction l with
  | nil =>
    intro i kw kw2 log log2 name h _
    simp only [resolveFrom, Prod.mk.injEq, Except.ok.injEq] at h
    rw [← h.1]
  | cons a rest ih =>
    intro i kw kw2 log log2 name h hmem
    simp only [resolveFrom] at h
    split at h
    · rename_i hc
      have hd : n - i = (n - (i + 1)) + 1 := by omega
      rw [hd, List.drop_succ_cons] at hmem
      exact ih (i + 1) kw kw2 log log2 name h hmem
    · rename_i hc
      have hd : n - i = 0 := by omega
      rw [hd, List.drop_zero] at hmem
      have hna : name ≠ a := fun he => hmem (he ▸ List.mem_cons_self a rest)
      have hnr : name ∉ rest := fun he => hmem (List.mem_cons_of_mem a he)
      split at h
      · simp at h
      · rename_i fv hma
        split at h
        · simp at h
        · rename_i v hcs
          have hd2 : n - (i + 1) = 0 := by omega
          have hnr2 : name ∉ rest.drop (n - (i + 1)) := by
            rw [hd2, List.drop_zero]; exact hnr
          rw [ih (i + 1) (setKw kw a v) kw2 (log ++ [a]) log2 name h hnr2]
          exact lookupA_setKw_ne kw a name v hna

/-- On success, every uncovered injectable name has a fixture, its
coercion succeeded, and the final keyword arguments bind the name to the
coerced fixture value — regardless of any binding the caller supplied. -/
theorem resolveFrom_ok_binding (m : List (String × Value))
    (an : List (String × Annot)) (n : Nat) (l : List String) :
    ∀ (i : Nat) (kw kw2 : List (String × Value)) (log log2 : List String)
      (name : String),
      l.Nodup →
      resolveFrom m an n i l kw log = (Except.ok kw2, log2) →
      name ∈ l.drop (n - i) →
      ∃ fv w, lookupA m name = some fv ∧
        coerceStep an name fv = Except.ok w ∧
        lookupA kw2 name = some w := by
  induction l with
  | nil =>
    intro i kw kw2 log log2 name _ _ hmem
    simp at hmem
  | cons a rest ih =>
    intro i kw kw2 log log2 name hnd h hmem
    have hndr : rest.Nodup := (List.nodup_cons.mp hnd).2
    have hanr : a ∉ rest := (List.nodup_cons.mp hnd).1
    simp only [resolveFrom] at h
    split at h
    · rename_i hc
      have hd : n - i = (n - (i + 1)) + 1 := by omega
      rw [hd, List.drop_succ_cons] at hmem
      exact ih (i + 1) kw kw2 log log2 name hndr h hmem
    · rename_i hc
      have hd : n - i = 0 := by omega
      rw [hd, List.drop_zero] at hmem
      split at h
      · simp at h
      · rename_i fv hma
        split at h
        · simp at h
        · rename_i v hcs
          rcases List.mem_cons.mp hmem with rfl | hr
          · refine ⟨fv, v, hma, hcs, ?_⟩
            have hpr : name ∉ rest.drop (n - (i + 1)) :=
              fun he => hanr (List.mem_of_mem_drop he)
            rw [resolveFrom_ok_preserve m an n rest (i + 1)
              (setKw kw name v) kw2 (log ++ [name]) log2 name h hpr]
            exact lookupA_setKw_self kw name v
          · have hd2 : n - (i + 1) = 0 := by omega
            have : name ∈ rest.drop (n - (i + 1)) := by
              rw [hd2, List.drop_zero]; exact hr
            exact ih (i + 1) (setKw kw a v) kw2 (log ++ [a]) log2 name
              hndr h this

/-- If, among the uncovered injectable names, some name has no fixture
and every uncovered name before it resolves (fixture present, coercion
succeeds), then the loop stops at that name with the bare `TypeError` of
the missing-fixture branch, having invoked exactly the factories of the
earlier uncovered names. -/
theorem resolveFrom_missing (m : List (String × Value))
    (an : List (String × Annot)) (n : Nat) (l : List String) :
    ∀ (i : Nat) (kw : List (String × Value)) (log : List String)
      (pre : List String) (name : String) (post : List String),
      l.drop (n - i) = pre ++ name :: post →
      lookupA m name = none →
      (∀ p ∈ pre, ∃ fv w, lookupA m p = some fv ∧
        coerceStep an p fv = Except.ok w) →
      resolveFrom m an n i l kw log =
        (Except.error PyErr.typeError, log ++ pre) := by
  induction l with
  | nil =>
    intro i kw log pre name post hdec _ _
    simp at hdec
  | cons a rest ih =>
    intro i kw log pre name post hdec hmiss hpre
    by_cases hc : i < n
    · have hd : n - i = (n - (i + 1)) + 1 := by omega
      rw [hd, List.drop_succ_cons] at hdec
      simp only [resolveFrom, if_pos hc]
      exact ih (i + 1) kw log pre name post hdec hmiss hpre
    · have hd : n - i = 0 := by omega
      rw [hd, List.drop_zero] at hdec
      simp only [resolveFrom, if_neg hc]
      cases pre with
      | nil =>
        simp only [List.nil_append] at hdec
        rw [List.cons.injEq] at hdec
        rw [← hdec.1] at hmiss
        simp [hmiss]
      | cons b pre2 =>
        rw [List.cons_append, List.cons.injEq] at hdec
        obtain ⟨hab, hrest⟩ := hdec
        subst hab
        rcases hpre a (List.mem_cons_self a pre2) with ⟨fv, w, hfv, hcw⟩
        simp only [hfv, hcw]
        have hd2 : rest.drop (n - (i + 1)) = pre2 ++ name :: post := by
          have h0 : n - (i + 1) = 0 := by omega
          rw [h0, List.drop_zero]; exact hrest
        have hpre2 : ∀ p ∈ pre2, ∃ fv2 w2, lookupA m p = some fv2 ∧
            coerceStep an p fv2 = Except.ok w2 :=
          fun p hp => hpre p (List.mem_cons_of_mem a hp)
        rw [ih (i + 1) (setKw kw a w) (log ++ [a]) pre2 name post hd2
          hmiss hpre2]
        simp

/-! ## Unfolding lemmas for `wrappedCall` -/

theorem wrappedCall_cache_hit {m : List (String × Value)} {f : Func}
    {st : WrapState} {args : List Value} {kwargs : List (String × Value)}
    (h : st.cache ≠ Value.vnone) :
    wrappedCall m f st args kwargs = (Except.ok st.cache, st) := by
  simp [wrappedCall, h]

theorem wrappedCall_resolve_error {m : List (String × Value)} {f : Func}
    {st : WrapState} {args : List Value} {kwargs : List (String × Value)}
    {e : PyErr} {log2 : List String}
    (hcache : st.cache = Value.vnone)
    (hres : resolveFrom m f.annotations args.length 0
      (getInjectableVariables f.code) kwargs st.factoryCalls =
        (Except.error e, log2)) :
    wrappedCall m f st args kwargs =
      (Except.error e, { st with factoryCalls := log2 }) := by
  simp [wrappedCall, hcache, hres]

theorem wrappedCall_body_error {m : List (String × Value)} {f : Func}
    {st : WrapState} {args : List Value}
    {kwargs kw2 : List (String × Value)} {e : PyErr} {log2 : List String}
    (hcache : st.cache = Value.vnone)
    (hres : resolveFrom m f.annotations args.length 0
      (getInjectableVariables f.code) kwargs st.factoryCalls =
        (Except.ok kw2, log2))
    (hbody : f.body args kw2 = Except.error e) :
    wrappedCall m f st args kwargs =
      (Except.error e,
        { st with factoryCalls := log2, bodyCalls := st.bodyCalls + 1 }) := by
  simp [wrappedCall, hcache, hres, hbody]

theorem wrappedCall_body_ok {m : List (String × Value)} {f : Func}
    {st : WrapState} {args : List Value}
    {kwargs kw2 : List (String × Value)} {v : Value} {log2 : List String}
    (hcache : st.cache = Value.vnone)
    (hres : resolveFrom m f.annotations args.length 0
      (getInjectableVariables f.code) kwargs st.factoryCalls =
        (Except.ok kw2, log2))
    (hbody : f.body args kw2 = Except.ok v) :
    wrappedCall m f st args kwargs =
      (Except.ok v, ⟨v, log2, st.bodyCalls + 1⟩) := by
  simp [wrappedCall, hcache, hres, hbody]

/-- Inverting a successful first call on an empty cache: the injection
loop succeeded, the body ran once on the loop's keyword arguments and
returned the call's result, and the result was stored in the cache. -/
theorem wrappedCall_ok_inv {m : List (String × Value)} {f : Func}
    {st st2 : WrapState} {args : List Value}
    {kwargs : List (String × Value)} {v : Value}
    (hcache : st.cache = Value.vnone)
    (h : wrappedCall m f st args kwargs = (Except.ok v, st2)) :
    ∃ kw2, resolveFrom m f.annotations args.length 0
        (getInjectableVariables f.code) kwargs st.factoryCalls =
          (Except.ok kw2, st2.factoryCalls) ∧
      f.body args kw2 = Except.ok v ∧
      st2 = ⟨v, st2.factoryCalls, st.bodyCalls + 1⟩ := by
  rw [wrappedCall] at h
  rw [if_neg (by simp [hcache])] at h
  rcases hres : resolveFrom m f.annotations args.length 0
      (getInjectableVariables f.code) kwargs st.factoryCalls with ⟨r, log2⟩
  rw [hres] at h
  cases r with
  | error e => simp at h
  | ok kw2 =>
    cases hbody : f.body args kw2 with
    | error e => simp [hbody] at h
    | ok w =>
      simp only [hbody, Prod.mk.injEq, Except.ok.injEq] at h
      obtain ⟨hv, hst⟩ := h
      subst hv
      subst hst
      refine ⟨kw2, ?_, hbody, rfl⟩
      simp only [hres]

/-! ## The claims -/

/-- C6: for every function, the ordered list of injectable parameter
names computed by `_get_injectable_variables` is exactly the declared
positional parameters followed by the keyword-only parameters, in
declaration order, excluding the catch-all variadic parameters and the
local variable names of the body. -/
theorem claim_C6_injectable_names (c : CodeObject) :
    getInjectableVariables c = c.posParams ++ c.kwonlyParams := by
  have h : ∀ (A B C D : List String),
      (((A ++ B) ++ C) ++ D).take A.length = A := by
    intro A B C D
    rw [List.append_assoc, List.append_assoc]
    exact List.take_left A _
  rw [getInjectableVariables, co_varnames, co_argcount, co_kwonlyargcount,
    ← List.length_append]
  exact h (c.posParams ++ c.kwonlyParams) _ _ _

/-- C7: an injectable parameter whose index is covered by an explicitly
supplied positional argument is skipped during resolution: its fixture
is never consulted (the factory log gains only the uncovered names), the
injection loop leaves its keyword binding untouched, and the body is
invoked with the original positional arguments. -/
theorem claim_C7_positional_precedence (m : List (String × Value))
    (f : Func) (st : WrapState) (args : List Value)
    (kwargs kw2 : List (String × Value)) (log2 : List String)
    (name : String)
    (hnd : (getInjectableVariables f.code).Nodup)
    (hmem : name ∈ (getInjectableVariables f.code).take args.length)
    (hcache : st.cache = Value.vnone)
    (hres : resolveFrom m f.annotations args.length 0
      (getInjectableVariables f.code) kwargs st.factoryCalls =
        (Except.ok kw2, log2)) :
    lookupA kw2 name = lookupA kwargs name ∧
    log2 = st.factoryCalls ++
      (getInjectableVariables f.code).drop args.length ∧
    name ∉ (getInjectableVariables f.code).drop args.length ∧
    (∀ v, f.body args kw2 = Except.ok v →
      wrappedCall m f st args kwargs =
        (Except.ok v, ⟨v, log2, st.bodyCalls + 1⟩)) := by
  have hnd2 := hnd
  rw [← List.take_append_drop args.length
    (getInjectableVariables f.code)] at hnd2
  have hdisj := (List.nodup_append.mp hnd2).2.2
  have hnot : name ∉ (getInjectableVariables f.code).drop args.length :=
    fun hin => hdisj hmem hin
  have hnot0 : name ∉ (getInjectableVariables f.code).drop
      (args.length - 0) := by
    rw [Nat.sub_zero]; exact hnot
  refine ⟨?_, ?_, hnot, ?_⟩
  · exact resolveFrom_ok_preserve m f.annotations args.length
      (getInjectableVariables f.code) 0 kwargs kw2 st.factoryCalls log2
      name hres hnot0
  · have := resolveFrom_ok_log m f.annotations args.length
      (getInjectableVariables f.code) 0 kwargs kw2 st.factoryCalls log2 hres
    rw [Nat.sub_zero] at this
    exact this
  · intro v hbody
    exact wrappedCall_body_ok hcache hres hbody

/-- Closed witness for C7: with fixture `name -> "freddy"` registered,
calling the wrapped `f(name)` with explicit positional argument `"bob"`
consults no fixture and returns `"hello bob"`, built from `"bob"`. -/
theorem claim_C7_witness :
    lookupA ([] : List (String × Value)) "name" =
      lookupA ([] : List (String × Value)) "name" ∧
    ([] : List String) = [] ++
      (getInjectableVariables greetFunc.code).drop
        [Value.vstr "bob"].length ∧
    "name" ∉ (getInjectableVariables greetFunc.code).drop
      [Value.vstr "bob"].length ∧
    wrappedCall freddyMapping greetFunc freshState [Value.vstr "bob"] [] =
      (Except.ok (Value.vstr "hello bob"),
        ⟨Value.vstr "hello bob", [], 1⟩) := by
  have h := claim_C7_positional_precedence freddyMapping greetFunc
    freshState [Value.vstr "bob"] [] [] [] "name" (by decide) (by decide)
    rfl rfl
  exact ⟨h.1, h.2.1, h.2.2.1, h.2.2.2 (Value.vstr "hello bob") rfl⟩

/-- C1, counterexample: the injection loop never checks the supplied
keyword arguments.  With fixture `name -> "freddy"` registered, calling
the wrapped `f(name)` with the explicit keyword argument `name="bob"`
still looks the fixture up (the factory log is `["name"]`), overwrites
the caller's value, and the body builds its result from `"freddy"`, not
from `"bob"`. -/
theorem claim_C1_counterexample :
    wrappedCall freddyMapping greetFunc freshState []
        [("name", Value.vstr "bob")] =
      (Except.ok (Value.vstr "hello freddy"),
        ⟨Value.vstr "hello freddy", ["name"], 1⟩) ∧
    Value.vstr "hello freddy" ≠ Value.vstr "hello bob" := by
  constructor
  · rfl
  · decide

/-- C1, amended: an injectable parameter name not covered by a positional
argument is always resolved from the registry, even when the caller
supplied it as a keyword argument: the fixture is looked up and invoked
(the name enters the factory log; a missing fixture raises), and the
fixture-produced (coerced) value overwrites any caller-supplied keyword
value before the body runs.  Only keyword arguments whose names are not
uncovered injectable parameters are preserved. -/
theorem claim_C1_amended (m : List (String × Value)) (f : Func)
    (st : WrapState) (args : List Value)
    (kwargs kw2 : List (String × Value)) (log2 : List String)
    (name : String)
    (hnd : (getInjectableVariables f.code).Nodup)
    (hmem : name ∈ (getInjectableVariables f.code).drop args.length)
    (hcache : st.cache = Value.vnone)
    (hres : resolveFrom m f.annotations args.length 0
      (getInjectableVariables f.code) kwargs st.factoryCalls =
        (Except.ok kw2, log2)) :
    (∃ fv w, lookupA m name = some fv ∧
      coerceStep f.annotations name fv = Except.ok w ∧
      lookupA kw2 name = some w) ∧
    name ∈ log2 ∧
    (∀ v, f.body args kw2 = Except.ok v →
      wrappedCall m f st args kwargs =
        (Except.ok v, ⟨v, log2, st.bodyCalls + 1⟩)) := by
  have hmem0 : name ∈ (getInjectableVariables f.code).drop
      (args.length - 0) := by
    rw [Nat.sub_zero]; exact hmem
  refine ⟨?_, ?_, ?_⟩
  · exact resolveFrom_ok_binding m f.annotations args.length
      (getInjectableVariables f.code) 0 kwargs kw2 st.factoryCalls log2
      name hnd hres hmem0
  · have hlog := resolveFrom_ok_log m f.annotations args.length
      (getInjectableVariables f.code) 0 kwargs kw2 st.factoryCalls log2 hres
    rw [Nat.sub_zero] at hlog
    rw [hlog]
    exact List.mem_append_right st.factoryCalls hmem
  · intro v hbody
    exact wrappedCall_body_ok hcache hres hbody

/-- Closed witness for the amended C1: with fixture `name -> "freddy"`
and call-site keyword `name="bob"`, the binding handed to the body is
`"freddy"`, the fixture was consulted, and the wrapped call returns
`"hello freddy"`. -/
theorem claim_C1_amended_witness :
    (∃ fv w, lookupA freddyMapping "name" = some fv ∧
      coerceStep greetFunc.annotations "name" fv = Except.ok w ∧
      lookupA [("name", Value.vstr "freddy")] "name" = some w) ∧
    "name" ∈ ["name"] ∧
    wrappedCall freddyMapping greetFunc freshState []
        [("name", Value.vstr "bob")] =
      (Except.ok (Value.vstr "hello freddy"),
        ⟨Value.vstr "hello freddy", ["name"], 1⟩) := by
  have h := claim_C1_amended freddyMapping greetFunc freshState []
    [("name", Value.vstr "bob")] [("name", Value.vstr "freddy")] ["name"]
    "name" (by decide) (by decide) rfl rfl
  exact ⟨h.1, h.2.1, h.2.2 (Value.vstr "hello freddy") rfl⟩

/-- C5: when an uncovered injectable parameter is resolved from its
fixture, a concrete (non-generic) annotation is applied to the fixture's
value as a single-argument converter before binding, while a
generic/parameterized annotation is skipped and the value is bound
unconverted. -/
theorem claim_C5_annotation_coercion (f : Func)
    (m : List (String × Value)) (args : List Value)
    (kwargs kw2 : List (String × Value)) (log log2 : List String)
    (name : String) (fv : Value)
    (hnd : (getInjectableVariables f.code).Nodup)
    (hmem : name ∈ (getInjectableVariables f.code).drop args.length)
    (hfv : lookupA m name = some fv)
    (hres : resolveFrom m f.annotations args.length 0
      (getInjectableVariables f.code) kwargs log =
        (Except.ok kw2, log2)) :
    (lookupA f.annotations name = some Annot.generic →
      lookupA kw2 name = some fv) ∧
    (∀ c w, lookupA f.annotations name = some (Annot.concrete c) →
      applyConv c fv = Except.ok w →
      lookupA kw2 name = some w) := by
  have hmem0 : name ∈ (getInjectableVariables f.code).drop
      (args.length - 0) := by
    rw [Nat.sub_zero]; exact hmem
  rcases resolveFrom_ok_binding m f.annotations args.length
      (getInjectableVariables f.code) 0 kwargs kw2 log log2
      name hnd hres hmem0 with ⟨fv2, w, hfv2, hcs, hlook⟩
  have hfveq : fv2 = fv := by
    have h12 : some fv2 = some fv := by rw [← hfv2, hfv]
    injection h12
  subst hfveq
  constructor
  · intro hgen
    rw [coerceStep_generic f.annotations name fv2 hgen] at hcs
    have hw : fv2 = w := by injection hcs
    rw [← hw] at hlook
    exact hlook
  · intro c w2 hconc happ
    rw [coerceStep_concrete f.annotations name fv2 c hconc, happ] at hcs
    have hw : w2 = w := by injection hcs
    rw [← hw] at hlook
    exact hlook

/-- Closed witness for C5: the string `"5"` produced for the
`int`-annotated `amount` is bound as integer `5`, and the list produced
for the `List[int]`-annotated `items` is bound unconverted. -/
theorem claim_C5_witness :
    lookupA [("amount", Value.vint 5), ("items", Value.vlist [1, 2, 3])]
        "amount" = some (Value.vint 5) ∧
    lookupA [("amount", Value.vint 5), ("items", Value.vlist [1, 2, 3])]
        "items" = some (Value.vlist [1, 2, 3]) := by
  constructor
  · exact (claim_C5_annotation_coercion coerceFunc coerceMapping [] []
      [("amount", Value.vint 5), ("items", Value.vlist [1, 2, 3])]
      [] ["amount", "items"] "amount" (Value.vstr "5")
      (by decide) (by decide) rfl rfl).2 Conv.toInt (Value.vint 5) rfl rfl
  · exact (claim_C5_annotation_coercion coerceFunc coerceMapping [] []
      [("amount", Value.vint 5), ("items", Value.vlist [1, 2, 3])]
      [] ["amount", "items"] "items" (Value.vlist [1, 2, 3])
      (by decide) (by decide) rfl rfl).1 rfl

/-- C3, counterexample: with `f(a: int, b)`, fixture `a -> "abc"` and no
fixture for `b`, the uncovered injectable `b` has no registry entry, yet
the call raises the `ValueError` of the failing coercion `int("abc")` on
the earlier parameter `a` — not the missing-fixture `TypeError` — so the
claim's promised error kind is wrong (the body is still never invoked). -/
theorem claim_C3_counterexample :
    lookupA [("a", Value.vstr "abc")] "b" = none ∧
    wrappedCall [("a", Value.vstr "abc")] badCoerceFunc freshState [] [] =
      (Except.error PyErr.valueError, ⟨Value.vnone, ["a"], 0⟩) ∧
    PyErr.valueError ≠ PyErr.typeError := by
  refine ⟨rfl, rfl, ?_⟩
  decide

/-- C3, amended: if an uncovered injectable parameter has no entry in
the registry and every uncovered parameter before it resolves without
raising (fixture present, coercion succeeds), the call raises the
missing-fixture `TypeError` at resolution time; the body is never
invoked, no result is cached, and only the factories of the earlier
uncovered parameters have been invoked.  (When an earlier parameter's
own resolution raises first, that error propagates instead; the body is
still never invoked.) -/
theorem claim_C3_amended (m : List (String × Value)) (f : Func)
    (st : WrapState) (args : List Value) (kwargs : List (String × Value))
    (pre : List String) (name : String) (post : List String)
    (hcache : st.cache = Value.vnone)
    (hdec : (getInjectableVariables f.code).drop args.length =
      pre ++ name :: post)
    (hmiss : lookupA m name = none)
    (hpre : ∀ p ∈ pre, ∃ fv w, lookupA m p = some fv ∧
      coerceStep f.annotations p fv = Except.ok w) :
    wrappedCall m f st args kwargs =
      (Except.error PyErr.typeError,
        ⟨Value.vnone, st.factoryCalls ++ pre, st.bodyCalls⟩) := by
  have hdec0 : (getInjectableVariables f.code).drop (args.length - 0) =
      pre ++ name :: post := by
    rw [Nat.sub_zero]; exact hdec
  have hres := resolveFrom_missing m f.annotations args.length
    (getInjectableVariables f.code) 0 kwargs st.factoryCalls pre name post
    hdec0 hmiss hpre
  have h := wrappedCall_resolve_error hcache hres
  rw [h, hcache]

/-- Closed witness for the amended C3: a wrapped `g(missing)` with an
empty registry raises the missing-fixture `TypeError`; the body never
runs and nothing is cached. -/
theorem claim_C3_amended_witness :
    wrappedCall [] greetFunc freshState [] [] =
      (Except.error PyErr.typeError, ⟨Value.vnone, [], 0⟩) :=
  claim_C3_amended [] greetFunc freshState [] [] [] "name" [] rfl
    (by decide) rfl (by intro p hp; simp at hp)

/-- C4, counterexample: a wrapped function whose body returns `None`.
The first call succeeds, yet the second call re-invokes both the fixture
factory and the body (counters reach 2), because `None` stored in the
cache slot is indistinguishable from an empty slot. -/
theorem claim_C4_counterexample :
    (wrappedCall freddyMapping noneFunc freshState [] []).1 =
      Except.ok Value.vnone ∧
    (wrappedCall freddyMapping noneFunc
        (wrappedCall freddyMapping noneFunc freshState [] []).2 [] []).2 =
      ⟨Value.vnone, ["name", "name"], 2⟩ ∧
    (2 : Nat) ≠ 1 := by
  refine ⟨rfl, rfl, ?_⟩
  decide

/-- C4, amended: if a wrapped call on an empty cache succeeds with a
result other than `None`, then a second call without an intervening
cache clear returns the cached result immediately and changes nothing:
across the two calls the body ran exactly once and each consulted
fixture factory (the uncovered injectable names, each distinct) was
invoked exactly once. -/
theorem claim_C4_amended (m : List (String × Value)) (f : Func)
    (st st2 : WrapState) (args : List Value)
    (kwargs : List (String × Value)) (v : Value)
    (hcache : st.cache = Value.vnone)
    (hnd : (getInjectableVariables f.code).Nodup)
    (h1 : wrappedCall m f st args kwargs = (Except.ok v, st2))
    (hv : v ≠ Value.vnone) :
    wrappedCall m f st2 args kwargs = (Except.ok v, st2) ∧
    st2.bodyCalls = st.bodyCalls + 1 ∧
    st2.factoryCalls = st.factoryCalls ++
      (getInjectableVariables f.code).drop args.length ∧
    ((getInjectableVariables f.code).drop args.length).Nodup := by
  rcases wrappedCall_ok_inv hcache h1 with ⟨kw2, hres, hbody, hst⟩
  have hcv : st2.cache = v := by rw [hst]
  have hlog := resolveFrom_ok_log m f.annotations args.length
    (getInjectableVariables f.code) 0 kwargs kw2 st.factoryCalls
    st2.factoryCalls hres
  rw [Nat.sub_zero] at hlog
  refine ⟨?_, ?_, hlog, (List.drop_sublist _ _).nodup hnd⟩
  · have hne : st2.cache ≠ Value.vnone := by rw [hcv]; exact hv
    rw [wrappedCall_cache_hit hne, hcv]
  · rw [hst]

/-- Closed witness for the amended C4: the spec's idempotence example —
fixture `name -> "freddy"`, wrapped `f(name)` returning
`"hello freddy"`; the second call returns the cached result and the
counters stay at one body run and one factory run. -/
theorem claim_C4_amended_witness :
    wrappedCall freddyMapping greetFunc
        ⟨Value.vstr "hello freddy", ["name"], 1⟩ [] [] =
      (Except.ok (Value.vstr "hello freddy"),
        ⟨Value.vstr "hello freddy", ["name"], 1⟩) ∧
    (⟨Value.vstr "hello freddy", ["name"], 1⟩ : WrapState).bodyCalls =
      freshState.bodyCalls + 1 ∧
    (⟨Value.vstr "hello freddy", ["name"], 1⟩ : WrapState).factoryCalls =
      freshState.factoryCalls ++
        (getInjectableVariables greetFunc.code).drop
          ([] : List Value).length ∧
    ((getInjectableVariables greetFunc.code).drop
      ([] : List Value).length).Nodup :=
  claim_C4_amended freddyMapping greetFunc freshState
    ⟨Value.vstr "hello freddy", ["name"], 1⟩ [] []
    (Value.vstr "hello freddy") rfl (by decide) rfl (by decide)

/-- C8: if the injection loop succeeds but the body raises, the
exception propagates unchanged, nothing is cached (the cache slot stays
empty), and a subsequent call re-attempts fixture resolution (the
factory log grows again by the uncovered names) and re-invokes the body
(which raises again). -/
theorem claim_C8_body_exception (m : List (String × Value)) (f : Func)
    (st : WrapState) (args : List Value)
    (kwargs kw2 : List (String × Value)) (log2 : List String) (e : PyErr)
    (hcache : st.cache = Value.vnone)
    (hres : resolveFrom m f.annotations args.length 0
      (getInjectableVariables f.code) kwargs st.factoryCalls =
        (Except.ok kw2, log2))
    (hbody : f.body args kw2 = Except.error e) :
    wrappedCall m f st args kwargs =
      (Except.error e, ⟨Value.vnone, log2, st.bodyCalls + 1⟩) ∧
    log2 = st.factoryCalls ++
      (getInjectableVariables f.code).drop args.length ∧
    wrappedCall m f ⟨Value.vnone, log2, st.bodyCalls + 1⟩ args kwargs =
      (Except.error e,
        ⟨Value.vnone,
          log2 ++ (getInjectableVariables f.code).drop args.length,
          st.bodyCalls + 2⟩) := by
  have hlog := resolveFrom_ok_log m f.annotations args.length
    (getInjectableVariables f.code) 0 kwargs kw2 st.factoryCalls log2 hres
  rw [Nat.sub_zero] at hlog
  have hshift := resolveFrom_shift m f.annotations args.length
    (getInjectableVariables f.code) 0 kwargs
  have hbase := hshift st.factoryCalls
  rw [hres] at hbase
  have h1 : (resolveFrom m f.annotations args.length 0
      (getInjectableVariables f.code) kwargs []).1 = Except.ok kw2 := by
    have hh := congrArg Prod.fst hbase
    simp at hh
    exact hh.symm
  have hdelta : (resolveFrom m f.annotations args.length 0
      (getInjectableVariables f.code) kwargs []).2 =
      (getInjectableVariables f.code).drop args.length := by
    have hres0 : resolveFrom m f.annotations args.length 0
        (getInjectableVariables f.code) kwargs [] =
        (Except.ok kw2, (resolveFrom m f.annotations args.length 0
          (getInjectableVariables f.code) kwargs []).2) := by
      rw [hshift [], h1]
    have hh := resolveFrom_ok_log m f.annotations args.length
      (getInjectableVariables f.code) 0 kwargs kw2 []
      ((resolveFrom m f.annotations args.length 0
        (getInjectableVariables f.code) kwargs []).2) hres0
    rw [Nat.sub_zero] at hh
    simpa using hh
  have hres2 : resolveFrom m f.annotations args.length 0
      (getInjectableVariables f.code) kwargs log2 =
      (Except.ok kw2,
        log2 ++ (getInjectableVariables f.code).drop args.length) := by
    rw [hshift log2, h1, hdelta]
  refine ⟨?_, hlog, ?_⟩
  · have h := wrappedCall_body_error hcache hres hbody
    rw [h, hcache]
  · have h := @wrappedCall_body_error m f
      ⟨Value.vnone, log2, st.bodyCalls + 1⟩ args kwargs kw2 e
      (log2 ++ (getInjectableVariables f.code).drop args.length)
      rfl hres2 hbody
    rw [h]

/-- Closed witness for C8: a wrapped `f(name)` whose body raises —
the exception propagates, nothing is cached, and the second call
re-invokes factory and body. -/
theorem claim_C8_witness :
    wrappedCall freddyMapping failFunc freshState [] [] =
      (Except.error (PyErr.userError "boom"),
        ⟨Value.vnone, ["name"], 1⟩) ∧
    ["name"] = freshState.factoryCalls ++
      (getInjectableVariables failFunc.code).drop
        ([] : List Value).length ∧
    wrappedCall freddyMapping failFunc ⟨Value.vnone, ["name"], 1⟩ [] [] =
      (Except.error (PyErr.userError "boom"),
        ⟨Value.vnone,
          ["name"] ++ (getInjectableVariables failFunc.code).drop
            ([] : List Value).length,
          2⟩) :=
  claim_C8_body_exception freddyMapping failFunc freshState [] []
    [("name", Value.vstr "freddy")] ["name"] (PyErr.userError "boom")
    rfl rfl rfl

/-- From a successful injection loop, rerunning the loop from any
starting factory log succeeds identically, appending the uncovered
names to that log. -/
theorem resolveFrom_rerun (m : List (String × Value))
    (an : List (String × Annot)) (n : Nat) (l : List String)
    (kwargs kw2 : List (String × Value)) (log0 log2 newlog : List String)
    (hres : resolveFrom m an n 0 l kwargs log0 = (Except.ok kw2, log2)) :
    resolveFrom m an n 0 l kwargs newlog =
      (Except.ok kw2, newlog ++ l.drop n) := by
  have hshift := resolveFrom_shift m an n l 0 kwargs
  have hbase := hshift log0
  rw [hres] at hbase
  have h1 : (resolveFrom m an n 0 l kwargs []).1 = Except.ok kw2 := by
    have hh := congrArg Prod.fst hbase
    simp at hh
    exact hh.symm
  have hdelta : (resolveFrom m an n 0 l kwargs []).2 = l.drop n := by
    have hres0 : resolveFrom m an n 0 l kwargs [] =
        (Except.ok kw2, (resolveFrom m an n 0 l kwargs []).2) := by
      rw [hshift [], h1]
    have hh := resolveFrom_ok_log m an n l 0 kwargs kw2 []
      ((resolveFrom m an n 0 l kwargs []).2) hres0
    rw [Nat.sub_zero] at hh
    simpa using hh
  rw [hshift newlog, h1, hdelta]

/-- C10 (implicit): when the body's result is `None`, the stored cache
slot is indistinguishable from an empty one, so the next call — with no
intervening `clear_cache` — resolves the fixtures again and re-executes
the body: the once-per-activation-window caching does not apply to a
`None` result. -/
theorem claim_C10_none_result (m : List (String × Value)) (f : Func)
    (st : WrapState) (args : List Value)
    (kwargs kw2 : List (String × Value)) (log2 : List String)
    (hcache : st.cache = Value.vnone)
    (hres : resolveFrom m f.annotations args.length 0
      (getInjectableVariables f.code) kwargs st.factoryCalls =
        (Except.ok kw2, log2))
    (hbody : f.body args kw2 = Except.ok Value.vnone) :
    wrappedCall m f st args kwargs =
      (Except.ok Value.vnone, ⟨Value.vnone, log2, st.bodyCalls + 1⟩) ∧
    wrappedCall m f ⟨Value.vnone, log2, st.bodyCalls + 1⟩ args kwargs =
      (Except.ok Value.vnone,
        ⟨Value.vnone,
          log2 ++ (getInjectableVariables f.code).drop args.length,
          st.bodyCalls + 2⟩) := by
  have hres2 := resolveFrom_rerun m f.annotations args.length
    (getInjectableVariables f.code) kwargs kw2 st.factoryCalls log2
    log2 hres
  constructor
  · have h := wrappedCall_body_ok hcache hres hbody
    rw [h]
  · have h := @wrappedCall_body_ok m f
      ⟨Value.vnone, log2, st.bodyCalls + 1⟩ args kwargs kw2 Value.vnone
      (log2 ++ (getInjectableVariables f.code).drop args.length)
      rfl hres2 hbody
    rw [h]

/-- Closed witness for C10: a wrapped `f(name)` whose body returns
`None` is re-resolved and re-executed on the second call: both counters
reach 2. -/
theorem claim_C10_witness :
    wrappedCall freddyMapping noneFunc freshState [] [] =
      (Except.ok Value.vnone, ⟨Value.vnone, ["name"], 1⟩) ∧
    wrappedCall freddyMapping noneFunc ⟨Value.vnone, ["name"], 1⟩ [] [] =
      (Except.ok Value.vnone,
        ⟨Value.vnone,
          ["name"] ++ (getInjectableVariables noneFunc.code).drop
            ([] : List Value).length,
          2⟩) :=
  claim_C10_none_result freddyMapping noneFunc freshState [] []
    [("name", Value.vstr "freddy")] ["name"] rfl rfl rfl

/-- C2: `clear_cache` visits every `(name, value)` pair of the registry
and empties exactly the cache slots: the names (in order) and every
other component are unchanged, every slot is empty afterwards, and a
subsequent call to a wrapped function whose cache was reset runs the
injection loop again (invoking the fixture factories for its uncovered
parameters) and re-invokes the body. -/
theorem claim_C2_clear_cache (mapping : List (String × Wrapped)) :
    (clear_cache mapping).map Prod.fst = mapping.map Prod.fst ∧
    (∀ p ∈ clear_cache mapping, p.2.st.cache = Value.vnone) ∧
    (∀ p ∈ mapping,
      (p.1, Wrapped.mk p.2.func
        ⟨Value.vnone, p.2.st.factoryCalls, p.2.st.bodyCalls⟩) ∈
          clear_cache mapping) ∧
    (∀ p ∈ clear_cache mapping,
      ∀ (m2 : List (String × Value)) (args : List Value)
        (kwargs kw2 : List (String × Value)) (log2 : List String)
        (v : Value),
        resolveFrom m2 p.2.func.annotations args.length 0
          (getInjectableVariables p.2.func.code) kwargs
          p.2.st.factoryCalls = (Except.ok kw2, log2) →
        p.2.func.body args kw2 = Except.ok v →
        wrappedCall m2 p.2.func p.2.st args kwargs =
          (Except.ok v, ⟨v, log2, p.2.st.bodyCalls + 1⟩)) := by
  refine ⟨?_, ?_, ?_, ?_⟩
  · rw [clear_cache, List.map_map]
    rfl
  · intro p hp
    rcases List.mem_map.mp hp with ⟨q, _, hq⟩
    rw [← hq]
  · intro p hp
    rw [clear_cache]
    exact List.mem_map_of_mem _ hp
  · intro p hp m2 args kwargs kw2 log2 v hres hbody
    have hcache : p.2.st.cache = Value.vnone := by
      rcases List.mem_map.mp hp with ⟨q, _, hq⟩
      rw [← hq]
    exact wrappedCall_body_ok hcache hres hbody

/-- Closed witness for C2: a one-entry registry holding the cached
`f(name)`; after `clear_cache` the slot is empty, the names are
unchanged, and the next call re-invokes the factory and the body
(counters go from 1 to 2). -/
theorem claim_C2_witness :
    (clear_cache [("name", Wrapped.mk greetFunc
        ⟨Value.vstr "hello freddy", ["name"], 1⟩)]).map Prod.fst =
      [("name", Wrapped.mk greetFunc
        ⟨Value.vstr "hello freddy", ["name"], 1⟩)].map Prod.fst ∧
    (("name", Wrapped.mk greetFunc ⟨Value.vnone, ["name"], 1⟩) :
      String × Wrapped).2.st.cache = Value.vnone ∧
    wrappedCall freddyMapping greetFunc ⟨Value.vnone, ["name"], 1⟩ [] [] =
      (Except.ok (Value.vstr "hello freddy"),
        ⟨Value.vstr "hello freddy", ["name", "name"], 2⟩) := by
  have h := claim_C2_clear_cache [("name", Wrapped.mk greetFunc
    ⟨Value.vstr "hello freddy", ["name"], 1⟩)]
  have hp : (("name", Wrapped.mk greetFunc ⟨Value.vnone, ["name"], 1⟩) :
      String × Wrapped) ∈
      clear_cache [("name", Wrapped.mk greetFunc
        ⟨Value.vstr "hello freddy", ["name"], 1⟩)] :=
    List.mem_singleton.mpr rfl
  exact ⟨h.1, h.2.1 _ hp,
    h.2.2.2 _ hp freddyMapping [] [] [("name", Value.vstr "freddy")]
      ["name", "name"] (Value.vstr "hello freddy") rfl rfl⟩

theorem get_setup_fixtures_stable (s : DataStore) :
    get_setup_fixtures (get_setup_fixtures s).2 =
      ((get_setup_fixtures s).1, (get_setup_fixtures s).2) := by
  cases h : s.setupSlot with
  | some a => simp [get_setup_fixtures, h]
  | none => simp [get_setup_fixtures, h]

theorem get_user_defined_mapping_stable (s : DataStore) :
    get_user_defined_mapping (get_user_defined_mapping s).2 =
      ((get_user_defined_mapping s).1, (get_user_defined_mapping s).2) := by
  cases h : s.mappingSlot with
  | some a => simp [get_user_defined_mapping, h]
  | none => simp [get_user_defined_mapping, h]

theorem get_included_tags_stable (s : DataStore) :
    get_included_tags (get_included_tags s).2 =
      ((get_included_tags s).1, (get_included_tags s).2) := by
  cases h : s.tagsSlot with
  | some a => simp [get_included_tags, h]
  | none => simp [get_included_tags, h]

theorem get_excluded_operations_stable (s : DataStore) :
    get_excluded_operations (get_excluded_operations s).2 =
      ((get_excluded_operations s).1,
        (get_excluded_operations s).2) := by
  cases h : s.excludedSlot with
  | some a => simp [get_excluded_operations, h]
  | none => simp [get_excluded_operations, h]

theorem get_non_vulnerable_operations_stable (s : DataStore) :
    get_non_vulnerable_operations (get_non_vulnerable_operations s).2 =
      ((get_non_vulnerable_operations s).1,
        (get_non_vulnerable_operations s).2) := by
  cases h : s.nonVulnerableSlot with
  | some a => simp [get_non_vulnerable_operations, h]
  | none => simp [get_non_vulnerable_operations, h]

/-- After a call to `get_included_tags`, the returned address holds a
tag-set object on the heap. -/
theorem get_included_tags_obj (s : DataStore)
    (h : tagsConsistent s = true) :
    ∃ ts, (get_included_tags s).2.heap (get_included_tags s).1 =
      some (PyObj.tagSet ts) := by
  cases hs : s.tagsSlot with
  | some a =>
    simp only [tagsConsistent, hs] at h
    simp only [get_included_tags, hs]
    split at h
    · rename_i ts ho
      exact ⟨ts, ho⟩
    · simp at h
  | none =>
    refine ⟨[], ?_⟩
    simp [get_included_tags, hs, heapSet]

/-- Inserting a tag through reference `a` is visible when reading back
through `a`. -/
theorem mem_readTags_addTag (s : DataStore) (a : Nat) (t : String)
    (ts : List String) (h : s.heap a = some (PyObj.tagSet ts)) :
    t ∈ readTags (addTag s a t) a := by
  by_cases ht : t ∈ ts
  · simp [addTag, h, readTags, heapSet, ht]
  · simp [addTag, h, readTags, heapSet, ht]

/-- C9: the five `lru_cache(maxsize=1)` accessors behind the four
global containers are singletons: a repeated call returns the very same
reference (and leaves the store untouched), so an insertion performed
through the reference returned by one call of `get_included_tags` is
visible when reading through the reference returned by another call. -/
theorem claim_C9_singleton_accessors (s : DataStore)
    (h : tagsConsistent s = true) :
    get_setup_fixtures (get_setup_fixtures s).2 =
      ((get_setup_fixtures s).1, (get_setup_fixtures s).2) ∧
    get_user_defined_mapping (get_user_defined_mapping s).2 =
      ((get_user_defined_mapping s).1,
        (get_user_defined_mapping s).2) ∧
    get_included_tags (get_included_tags s).2 =
      ((get_included_tags s).1, (get_included_tags s).2) ∧
    get_excluded_operations (get_excluded_operations s).2 =
      ((get_excluded_operations s).1, (get_excluded_operations s).2) ∧
    get_non_vulnerable_operations
        (get_non_vulnerable_operations s).2 =
      ((get_non_vulnerable_operations s).1,
        (get_non_vulnerable_operations s).2) ∧
    ∀ t, t ∈ readTags
      (addTag (get_included_tags (get_included_tags s).2).2
        (get_included_tags s).1 t)
      (get_included_tags (get_included_tags s).2).1 := by
  have hst := get_included_tags_stable s
  have h1 : (get_included_tags (get_included_tags s).2).1 =
      (get_included_tags s).1 := by rw [hst]
  have h2 : (get_included_tags (get_included_tags s).2).2 =
      (get_included_tags s).2 := by rw [hst]
  refine ⟨get_setup_fixtures_stable s, get_user_defined_mapping_stable s,
    hst, get_excluded_operations_stable s,
    get_non_vulnerable_operations_stable s, ?_⟩
  intro t
  rw [h1, h2]
  rcases get_included_tags_obj s h with ⟨ts, hts⟩
  exact mem_readTags_addTag _ _ t ts hts

/-- Closed witness for C9: on a fresh store, each accessor's second
call returns the first call's reference unchanged, and a tag inserted
through the first reference is read back through the second. -/
theorem claim_C9_witness :
    get_setup_fixtures (get_setup_fixtures freshStore).2 =
      ((get_setup_fixtures freshStore).1,
        (get_setup_fixtures freshStore).2) ∧
    get_user_defined_mapping (get_user_defined_mapping freshStore).2 =
      ((get_user_defined_mapping freshStore).1,
        (get_user_defined_mapping freshStore).2) ∧
    get_included_tags (get_included_tags freshStore).2 =
      ((get_included_tags freshStore).1,
        (get_included_tags freshStore).2) ∧
    get_excluded_operations (get_excluded_operations freshStore).2 =
      ((get_excluded_operations freshStore).1,
        (get_excluded_operations freshStore).2) ∧
    get_non_vulnerable_operations
        (get_non_vulnerable_operations freshStore).2 =
      ((get_non_vulnerable_operations freshStore).1,
        (get_non_vulnerable_operations freshStore).2) ∧
    "payments" ∈ readTags
      (addTag (get_included_tags (get_included_tags freshStore).2).2
        (get_included_tags freshStore).1 "payments")
      (get_included_tags (get_included_tags freshStore).2).1 := by
  have h := claim_C9_singleton_accessors freshStore rfl
  exact ⟨h.1, h.2.1, h.2.2.1, h.2.2.2.1, h.2.2.2.2.1,
    h.2.2.2.2.2 "payments"⟩

end FuzzLightyear
